import Mathlib

/-!
# Verification of the organization repository layer (jobs-caen-camp)

Shallow embedding of `apps/api/src/organization/repository.js`.

JavaScript objects are modelled as association lists of string keys and
`JsValue` values (first match wins on lookup; object literal spread
semantics are modelled by `setField`, which replaces a key in place or
appends it).  The lodash helpers `omit` and `pick` are modelled as the
corresponding filters.  Database rows and tables are explicit lists, and
the knex statements built by the repository are reified as `ContactStmt`
values applied to the database state in program order.
-/

/-- A JavaScript value, as manipulated by the repository.  `vundef` is the
result of reading an absent property. -/
inductive JsValue where
  | vundef
  | vnull
  | vbool (b : Bool)
  | vnum (n : Int)
  | vstr (s : String)
  | vobj (fields : List (String × JsValue))
  | varr (elems : List JsValue)

/-- A JavaScript object: an association list of fields, first match wins. -/
abbrev JsObj := List (String × JsValue)

/-- Property lookup: `o.k`, `none` when the key is absent (first match wins,
matching JavaScript objects whose keys are unique). -/
def getField (o : JsObj) (k : String) : Option JsValue :=
  match o with
  | [] => none
  | (k0, v0) :: rest => if k0 == k then some v0 else getField rest k

/-- Property access as JavaScript performs it: absent keys read as undefined. -/
def getFieldD (o : JsObj) (k : String) : JsValue :=
  (getField o k).getD JsValue.vundef

/-- JavaScript truthiness of a value. -/
def truthy : JsValue → Bool
  | JsValue.vundef => false
  | JsValue.vnull => false
  | JsValue.vbool b => b
  | JsValue.vnum n => n != 0
  | JsValue.vstr s => s != ""
  | JsValue.vobj _ => true
  | JsValue.varr _ => true

/-- lodash `omit`: drop the listed keys. -/
def omitKeys (o : JsObj) (ks : List String) : JsObj :=
  o.filter (fun p => !(ks.contains p.1))

/-- lodash `pick`: keep exactly the listed keys, in the order of the key list. -/
def pickKeys (o : JsObj) (ks : List String) : JsObj :=
  ks.filterMap (fun k => (getField o k).map (fun v => (k, v)))

/-- Object literal update `o.k = v` under spread semantics: an existing key
is replaced in place, a fresh key is appended. -/
def setField (o : JsObj) (k : String) (v : JsValue) : JsObj :=
  match o with
  | [] => [(k, v)]
  | (k', v') :: rest =>
      if k' == k then (k, v) :: rest else (k', v') :: setField rest k v

/-- Spread-merge of two objects, fields of the second overriding the first.
Models both `.update(obj)` column semantics and object literal spreads. -/
def mergeFields (o : JsObj) (upd : JsObj) : JsObj :=
  upd.foldl (fun acc p => setField acc p.1 p.2) o

/-- Strict equality test between a known number and a JavaScript value,
as used by `Array.prototype.includes` on an array of numeric ids. -/
def strictEqNum (n : Int) : JsValue → Bool
  | JsValue.vnum m => m == n
  | _ => false

/-- The `identifier` property of a payload contact point (undefined when absent). -/
def getIdentifier (contact : JsObj) : JsValue :=
  getFieldD contact "identifier"

/-- `getIdsToDelete` from repository.js lines 259-264: map the payload
entries to their identifiers, keep the truthy ones, and return the db ids
not strictly equal to any of them. -/
def getIdsToDelete (idsInDb : List Int) (objectsFromApi : List JsObj) : List Int :=
  let idsApi := (objectsFromApi.map getIdentifier).filter truthy
  idsInDb.filter (fun id => !(idsApi.any (strictEqNum id)))

/-- Whether a payload entry references a db id through its identifier field
(regardless of truthiness).  This follows the spec words for the pure
set-difference reading of the diff algorithm. -/
def referencesId (o : JsObj) (id : Int) : Bool :=
  strictEqNum id (getIdentifier o)

/-- The deletion set as the spec describes it: a pure set difference of
`idsInDb` against all identifiers referenced by payload entries. -/
def specDeletionSet (idsInDb : List Int) (objectsFromApi : List JsObj) : List Int :=
  idsInDb.filter (fun id => !(objectsFromApi.any (fun o => referencesId o id)))

/-- The object stored under a value when JavaScript spreads it: the fields
of an object, and nothing for any other value. -/
def objFields : JsValue → JsObj
  | JsValue.vobj f => f
  | _ => []

/-- A JavaScript array of objects, as the repository iterates over
`contactPoints`; non-arrays contribute nothing, non-object elements spread
to the empty object. -/
def asObjList : JsValue → List JsObj
  | JsValue.varr es => es.map objFields
  | _ => []

/-- The four flat address columns moved in and out of the nested `address`
object by the formatter (repository.js lines 77-92). -/
def addressFieldNames : List String :=
  ["addressCountry", "addressLocality", "postalCode", "streetAddress"]

/-- `formatOrganizationForAPI` (repository.js lines 77-92): spread of
`omit(dbOrganization, addressFieldNames)` followed by an `address` key
holding `pick(dbOrganization, addressFieldNames)`. -/
def formatOrganizationForAPI (dbOrganization : JsObj) : JsObj :=
  setField (omitKeys dbOrganization addressFieldNames) "address"
    (JsValue.vobj (pickKeys dbOrganization addressFieldNames))

/-- Result of `prepareOrganizationDataForSave`. -/
structure PreparedData where
  organization : JsObj
  contactPoint : JsValue
  contactPoints : List JsObj

/-- `prepareOrganizationDataForSave` (repository.js lines 131-141): the
organization record is the payload without `address` and `contactPoints`,
with the four address fields flattened; only `addressCountry` passes
through a `|| null` coercion.  `contactPoint` is the first payload contact
point (a legacy convenience) and `contactPoints` the full list. -/
def prepareOrganizationDataForSave (dataFromApi : JsObj) : PreparedData :=
  { organization :=
      setField (setField (setField (setField
        (omitKeys dataFromApi ["address", "contactPoints"])
        "addressCountry"
          (if truthy (getFieldD (objFields (getFieldD dataFromApi "address")) "addressCountry")
            then getFieldD (objFields (getFieldD dataFromApi "address")) "addressCountry"
            else JsValue.vnull))
        "addressLocality" (getFieldD (objFields (getFieldD dataFromApi "address")) "addressLocality"))
        "postalCode" (getFieldD (objFields (getFieldD dataFromApi "address")) "postalCode"))
        "streetAddress" (getFieldD (objFields (getFieldD dataFromApi "address")) "streetAddress"),
    contactPoint :=
      match getFieldD dataFromApi "contactPoints" with
      | JsValue.varr (e :: _) => e
      | _ => JsValue.vundef,
    contactPoints := asObjList (getFieldD dataFromApi "contactPoints") }

/-- A concrete API payload exhibiting the two round-trip failures: a
present but empty `addressCountry`, and a top-level scalar named like an
address column. -/
def exPayloadAddr : JsObj :=
  [("name", JsValue.vstr "Org"),
   ("postalCode", JsValue.vstr "99"),
   ("address", JsValue.vobj
      [("addressCountry", JsValue.vstr ""),
       ("addressLocality", JsValue.vstr "Caen"),
       ("postalCode", JsValue.vstr "14000"),
       ("streetAddress", JsValue.vstr "1 rue")]),
   ("contactPoints", JsValue.varr [])]

/-- A well-behaved concrete payload for the round-trip witness. -/
def exPayloadAddrOk : JsObj :=
  [("name", JsValue.vstr "Org"),
   ("address", JsValue.vobj
      [("addressCountry", JsValue.vstr "FR"),
       ("addressLocality", JsValue.vstr "Caen"),
       ("postalCode", JsValue.vstr "14000"),
       ("streetAddress", JsValue.vstr "1 rue")]),
   ("contactPoints", JsValue.varr [])]

/-- A `contact_point` row: primary key, `organization_id` foreign key, and
the remaining columns kept as an object. -/
structure ContactRow where
  id : Int
  organizationId : Int
  fields : JsObj

/-- An `organization` row: primary key plus its columns. -/
structure OrgRow where
  id : Int
  fields : JsObj

/-- Database state: the two tables and their serial id sequences. -/
structure Db where
  organizations : List OrgRow
  contacts : List ContactRow
  nextOrgId : Int
  nextContactId : Int

/-- The contact points currently belonging to an organization. -/
def orgContacts (db : Db) (orgId : Int) : List ContactRow :=
  db.contacts.filter (fun r => r.organizationId == orgId)

/-- The pre-update snapshot read (repository.js lines 285-290): the ids of
the contact points belonging to the organization. -/
def existingContactIds (db : Db) (orgId : Int) : List Int :=
  (orgContacts db orgId).map (fun r => r.id)

/-- `Array.prototype.includes` on an array of numeric ids. -/
def idsInclude (ids : List Int) (v : JsValue) : Bool :=
  ids.any (fun i => strictEqNum i v)

/-- One reified knex statement over the `contact_point` table. -/
inductive ContactStmt where
  | upd (id : Int) (fields : JsObj)
  | ins (orgId : Int) (fields : JsObj)
  | del (id : Int)

/-- Effect of an UPDATE on one row: matched rows merge the given columns. -/
def applyUpd (i : Int) (f : JsObj) (r : ContactRow) : ContactRow :=
  if r.id == i then { r with fields := mergeFields r.fields f } else r

/-- Execute one statement against the database.  INSERT assigns the next
serial id; DELETE removes all rows with the given id. -/
def applyContactStmt (db : Db) : ContactStmt → Db
  | ContactStmt.upd i f => { db with contacts := db.contacts.map (applyUpd i f) }
  | ContactStmt.ins o f =>
      { db with
        contacts := db.contacts ++ [⟨db.nextContactId, o, f⟩]
        nextContactId := db.nextContactId + 1 }
  | ContactStmt.del i => { db with contacts := db.contacts.filter (fun r => r.id != i) }

/-- The statements the reduce at repository.js lines 292-321 pushes for one
payload contact point: an update when the identifier is truthy and in the
snapshot, an insert when the identifier is falsy, nothing otherwise.  The
two conditions are tested independently, as in the source.  (When
`idsInclude` succeeds the identifier is necessarily a number, so the
catch-all match arm is unreachable; it is kept for totality.) -/
def contactStmtsFor (existing : List Int) (orgId : Int) (contact : JsObj) : List ContactStmt :=
  (if truthy (getIdentifier contact) && idsInclude existing (getIdentifier contact) then
    match getIdentifier contact with
    | JsValue.vnum i => [ContactStmt.upd i (omitKeys contact ["identifier"])]
    | _ => []
   else []) ++
  (if !truthy (getIdentifier contact) then [ContactStmt.ins orgId contact] else [])

/-- The contact-point reconciliation performed inside the update
transaction (repository.js lines 284-336): snapshot the existing ids, push
update/insert statements per payload entry in payload order, then one
delete per id in the diff, and execute them all. -/
def updateOrganizationContacts (db : Db) (orgId : Int) (contactPoints : List JsObj) : Db :=
  let existing := existingContactIds db orgId
  let stmts := contactPoints.flatMap (contactStmtsFor existing orgId)
      ++ (getIdsToDelete existing contactPoints).map ContactStmt.del
  stmts.foldl applyContactStmt db

/-- The organization-row UPDATE at repository.js lines 280-283. -/
def applyOrgUpdate (db : Db) (orgId : Int) (fields : JsObj) : Db :=
  { db with organizations := db.organizations.map (fun r =>
      if r.id == orgId then { r with fields := mergeFields r.fields fields } else r) }

/-- The successful path of `updateOrganization`'s transaction
(repository.js lines 273-348): update the organization row, then reconcile
its contact points. -/
def updateOrganizationDb (db : Db) (organizationId : Int) (apiData : JsObj) : Db :=
  let prep := prepareOrganizationDataForSave apiData
  updateOrganizationContacts (applyOrgUpdate db organizationId prep.organization)
    organizationId prep.contactPoints

/-- The successful path of `createOrganization`'s transaction
(repository.js lines 184-213): insert the organization row obtaining its
serial id, then insert every payload contact point stamped with it. -/
def createOrganizationDb (db : Db) (apiData : JsObj) : Db × Int :=
  let prep := prepareOrganizationDataForSave apiData
  let orgId := db.nextOrgId
  let db1 : Db := { db with
    organizations := db.organizations ++ [⟨orgId, prep.organization⟩],
    nextOrgId := db.nextOrgId + 1 }
  (prep.contactPoints.foldl (fun d c => applyContactStmt d (ContactStmt.ins orgId c)) db1,
    orgId)

/-- The numeric value of a truthy identifier, if any: this is what can
protect a snapshot id from deletion and select a row for update. -/
def truthyIdentOf (c : JsObj) : Option Int :=
  match getIdentifier c with
  | JsValue.vnum i => if i = 0 then none else some i
  | _ => none

/-- All truthy numeric identifiers referenced by a payload, in order. -/
def referencedIds (payload : List JsObj) : List Int :=
  payload.filterMap truthyIdentOf

/-- A payload entry is well formed with respect to a snapshot when a truthy
identifier is a number belonging to the snapshot (stale and non-numeric
identifiers are what the original claim breaks on). -/
def identValid (existing : List Int) (c : JsObj) : Bool :=
  if truthy (getIdentifier c) then
    match getIdentifier c with
    | JsValue.vnum i => existing.contains i
    | _ => false
  else true

/-- The update statements the reconciliation performs: target id and
columns, in payload order. -/
def updatesOf (existing : List Int) (payload : List JsObj) : List (Int × JsObj) :=
  payload.filterMap (fun c =>
    if truthy (getIdentifier c) && idsInclude existing (getIdentifier c) then
      match getIdentifier c with
      | JsValue.vnum i => some (i, omitKeys c ["identifier"])
      | _ => none
    else none)

/-- The payload entries inserted as new rows, in payload order. -/
def insertsOf (payload : List JsObj) : List JsObj :=
  payload.filter (fun c => !truthy (getIdentifier c))

/-- The rows created by a run of inserts starting at a serial id. -/
def insertedRows (startId : Int) (orgId : Int) : List JsObj → List ContactRow
  | [] => []
  | f :: fs => ⟨startId, orgId, f⟩ :: insertedRows (startId + 1) orgId fs

/-- Cumulative effect of a list of update statements on one row (at most
one statement targets it when target ids are distinct). -/
def updOf (us : List (Int × JsObj)) (r : ContactRow) : ContactRow :=
  match us.find? (fun p => p.1 == r.id) with
  | some p => { r with fields := mergeFields r.fields p.2 }
  | none => r

/-- The stored state of the update-reconciliation scenario: organization 7
with contacts id 1 (phone) and id 2 (email). -/
def exScenarioDb : Db :=
  { organizations := [⟨7, [("name", JsValue.vstr "Org")]⟩]
    contacts := [⟨1, 7, [("contactType", JsValue.vstr "phone")]⟩,
                 ⟨2, 7, [("contactType", JsValue.vstr "email")]⟩]
    nextOrgId := 8
    nextContactId := 3 }

/-- The scenario update payload: entry with identifier 1 carrying a new
email, and an identifier-less fax entry. -/
def exScenarioPayload : List JsObj :=
  [[("identifier", JsValue.vnum 1), ("contactType", JsValue.vstr "phone"),
    ("email", JsValue.vstr "new@x.com")],
   [("contactType", JsValue.vstr "fax"), ("email", JsValue.vstr "y@x.com")]]

/-- A stored state with one contact (id 5) of organization 7. -/
def exStaleDb : Db :=
  { organizations := [⟨7, []⟩]
    contacts := [⟨5, 7, [("contactType", JsValue.vstr "phone")]⟩]
    nextOrgId := 8
    nextContactId := 6 }

/-- A payload entry with a stale identifier 99, absent from the snapshot. -/
def exStaleEntry : JsObj :=
  [("identifier", JsValue.vnum 99), ("contactType", JsValue.vstr "phone")]

/-- The `contact_type` sort key of a row: its string value, or NULL (a
missing or null column), which Postgres sorts last in ascending order. -/
def contactTypeKey (r : ContactRow) : Option String :=
  match getField r.fields "contactType" with
  | some (JsValue.vstr s) => some s
  | _ => none

/-- Lexicographic comparison of character-code sequences, modelling the
engine's ascending text ordering. -/
def natListLe : List Nat → List Nat → Bool
  | [], _ => true
  | _ :: _, [] => false
  | a :: as, b :: bs => if a < b then true else if a = b then natListLe as bs else false

/-- Text comparison on the characters of the two strings. -/
def strLeB (a b : String) : Bool :=
  natListLe (a.data.map Char.toNat) (b.data.map Char.toNat)

def natListLe_total : ∀ as bs : List Nat, natListLe as bs = true ∨ natListLe bs as = true := by
  intro as
  induction as with
  | nil =>
      intro bs
      left
      rfl
  | cons a as ih =>
      intro bs
      cases bs with
      | nil =>
          right
          rfl
      | cons b bs =>
          by_cases h1 : a < b
          · left
            simp [natListLe, h1]
          · by_cases h2 : a = b
            · subst h2
              rcases ih bs with h | h
              · left
                simp [natListLe, h]
              · right
                simp [natListLe, h]
            · have h3 : b < a := by omega
              right
              simp [natListLe, h3]

def natListLe_trans : ∀ as bs cs : List Nat,
    natListLe as bs = true → natListLe bs cs = true → natListLe as cs = true := by
  intro as
  induction as with
  | nil =>
      intro bs cs h1 h2
      rfl
  | cons a as ih =>
      intro bs cs h1 h2
      cases bs with
      | nil => simp [natListLe] at h1
      | cons b bs =>
          cases cs with
          | nil => simp [natListLe] at h2
          | cons c cs =>
              simp only [natListLe] at h1 h2 ⊢
              by_cases hab : a < b
              · by_cases hbc : b < c
                · have hac : a < c := by omega
                  simp [hac]
                · by_cases hbc2 : b = c
                  · subst hbc2
                    simp [hab]
                  · simp [hbc, hbc2] at h2
              · by_cases hab2 : a = b
                · subst hab2
                  by_cases hbc : a < c
                  · simp [hbc]
                  · by_cases hbc2 : a = c
                    · subst hbc2
                      simp [Nat.lt_irrefl] at h1 h2 ⊢
                      exact ih bs cs h1 h2
                    · simp [hbc, hbc2] at h2
                · simp [hab, hab2] at h1

/-- Boolean comparison underlying the ORDER BY contact_type ASC. -/
def rowLeB (a b : ContactRow) : Bool :=
  match contactTypeKey a, contactTypeKey b with
  | some x, some y => strLeB x y
  | some _, none => true
  | none, some _ => false
  | none, none => true

/-- ORDER BY contact_type ascending, NULLs last. -/
def rowLe (a b : ContactRow) : Prop := rowLeB a b = true

instance : DecidableRel rowLe :=
  fun a b => inferInstanceAs (Decidable (rowLeB a b = true))

instance : IsTotal ContactRow rowLe := by
  constructor
  intro a b
  unfold rowLe rowLeB
  cases contactTypeKey a <;> cases contactTypeKey b <;> simp
  exact natListLe_total _ _

instance : IsTrans ContactRow rowLe := by
  constructor
  intro a b c hab hbc
  unfold rowLe rowLeB at hab hbc ⊢
  cases ha : contactTypeKey a <;> cases hb : contactTypeKey b <;>
    cases hc : contactTypeKey c <;>
    rw [ha, hb] at hab <;> rw [hb, hc] at hbc <;> simp_all
  exact natListLe_trans _ _ _ hab hbc

/-- One element of the aggregated JSON column
(`jsonb_build_object` at repository.js lines 36-47 and 155-166):
identifier, email, telephone, name, contactType, drawn from the row. -/
def contactPointView (r : ContactRow) : JsValue :=
  JsValue.vobj [("identifier", JsValue.vnum r.id),
    ("email", (getField r.fields "email").getD JsValue.vnull),
    ("telephone", (getField r.fields "telephone").getD JsValue.vnull),
    ("name", (getField r.fields "name").getD JsValue.vnull),
    ("contactType", (getField r.fields "contactType").getD JsValue.vnull)]

/-- The correlated subquery computing the `contact_points` column: the
organization's contact points as JSON objects ordered by contact type
ascending, and SQL NULL (modelled as null) when the organization has
none (`array_agg` over no rows).  Shared by the list query and the
single-organization query. -/
def contactPointsColumn (db : Db) (orgId : Int) : JsValue :=
  if (orgContacts db orgId).isEmpty then JsValue.vnull
  else JsValue.varr
    ((List.insertionSort rowLe (orgContacts db orgId)).map contactPointView)

/-- Contact rows with types phone, email, fax inserted in that order. -/
def exOrderDb : Db :=
  { organizations := [⟨7, []⟩]
    contacts := [⟨1, 7, [("contactType", JsValue.vstr "phone")]⟩,
                 ⟨2, 7, [("contactType", JsValue.vstr "email")]⟩,
                 ⟨3, 7, [("contactType", JsValue.vstr "fax")]⟩]
    nextOrgId := 8
    nextContactId := 4 }

/-- An empty database. -/
def exEmptyDb : Db :=
  { organizations := [], contacts := [], nextOrgId := 1, nextContactId := 1 }

/-- A payload entry with no identifier. -/
def exFalsyEntry : JsObj :=
  [("contactType", JsValue.vstr "fax")]

/-- SQL LIKE matching over character lists, with the standard `%` and `_`
wildcards and the default backslash escape, as the persistence engine
evaluates the patterns that `getFilteredOrganizationsQuery` builds. -/
def likeMatchL (p s : List Char) : Bool :=
  match p with
  | [] => s.isEmpty
  | c :: p2 =>
      if c = '%' then
        likeMatchL p2 s ||
          (match s with
           | [] => false
           | _ :: s2 => likeMatchL (c :: p2) s2)
      else if c = '_' then
        (match s with
         | [] => false
         | _ :: s2 => likeMatchL p2 s2)
      else if c = '\\' then
        (match p2 with
         | [] => false
         | c2 :: p3 =>
             (match s with
              | [] => false
              | c3 :: s2 => c2 == c3 && likeMatchL p3 s2))
      else
        (match s with
         | [] => false
         | c2 :: s2 => c == c2 && likeMatchL p2 s2)
  termination_by p.length + s.length
  decreasing_by
    all_goals simp_wf
    all_goals omega

/-- SQL LIKE on strings. -/
def likeMatch (p s : String) : Bool := likeMatchL p.data s.data

/-- Whether one character list starts with another. -/
def listStartsB : List Char → List Char → Bool
  | [], _ => true
  | _ :: _, [] => false
  | a :: as, b :: bs => a == b && listStartsB as bs

/-- Whether one character list occurs inside another. -/
def listInfixB (p : List Char) : List Char → Bool
  | [] => listStartsB p []
  | c :: s2 => listStartsB p (c :: s2) || listInfixB p s2

/-- A filter value free of LIKE metacharacters. -/
def noMetaL (v : List Char) : Bool :=
  v.all (fun c => !(c == '%') && !(c == '_') && !(c == '\\'))

/-- The sanitized filters of the organization list query: the three
whitelisted fields are destructured (repository.js line 32), anything
else remaining lands in `restFilters`. -/
structure OrgFilters where
  name : Option String
  address_locality : Option String
  postal_code : Option String
  restFilters : List (String × String)

/-- The text columns of an organization row as seen by the WHERE clause. -/
structure OrgQueryRow where
  name : String
  address_locality : String
  postal_code : String
  other : List (String × String)

/-- Column lookup among the non-whitelisted columns. -/
def lookupStr (l : List (String × String)) (k : String) : Option String :=
  (l.find? (fun p => p.1 == k)).map (fun p => p.2)

/-- `.where(restFilters)`: exact-match equality on every remaining key. -/
def restMatches (rest : List (String × String)) (row : OrgQueryRow) : Bool :=
  rest.all (fun p =>
    match lookupStr row.other p.1 with
    | some v => v == p.2
    | none => false)

/-- The WHERE clause built by `getFilteredOrganizationsQuery`
(repository.js lines 31-62): exact match on the remaining filters, then —
only for truthy values, as `if (name)` skips empty strings — `name LIKE
%v%`, `address_locality LIKE v%`, `postal_code LIKE v%`.  (The ORDER BY
added when a sort parameter is present selects no rows and is not
modelled; no claim concerns it.) -/
def orgMatches (filters : OrgFilters) (row : OrgQueryRow) : Bool :=
  restMatches filters.restFilters row
  && (match filters.name with
      | none => true
      | some v => if v == "" then true else likeMatch ("%" ++ v ++ "%") row.name)
  && (match filters.address_locality with
      | none => true
      | some v => if v == "" then true else likeMatch (v ++ "%") row.address_locality)
  && (match filters.postal_code with
      | none => true
      | some v => if v == "" then true else likeMatch (v ++ "%") row.postal_code)

/-- Substring occurrence on strings. -/
def strContainsB (v s : String) : Bool := listInfixB v.data s.data

/-- Leading-substring test on strings. -/
def strStartsB (v s : String) : Bool := listStartsB v.data s.data

/-- Modelled from the spec: the filter semantics the spec asserts — the
`name` filter as case-sensitive substring, the two others as leading
match, everything else exact equality, absent filters unrestricted. -/
def specMatches (filters : OrgFilters) (row : OrgQueryRow) : Bool :=
  restMatches filters.restFilters row
  && (match filters.name with
      | none => true
      | some v => strContainsB v row.name)
  && (match filters.address_locality with
      | none => true
      | some v => strStartsB v row.address_locality)
  && (match filters.postal_code with
      | none => true
      | some v => strStartsB v row.postal_code)

/-- A filter value free of the LIKE metacharacters and escape. -/
def noMeta (v : String) : Bool := noMetaL v.data

/-- The filter set with a bare `%` as name filter. -/
def exFilterPct : OrgFilters :=
  { name := some "%", address_locality := none, postal_code := none, restFilters := [] }

/-- A row whose name does not contain a percent sign. -/
def exRowZzz : OrgQueryRow :=
  { name := "zzz", address_locality := "", postal_code := "", other := [] }

/-- The spec's own example filters: name containing `Lead`, postal code
starting with `14`. -/
def exFilterLead : OrgFilters :=
  { name := some "Lead", address_locality := none, postal_code := some "14", restFilters := [] }

/-- A row matching both example filters. -/
def exRowLead : OrgQueryRow :=
  { name := "Data Science Lead", address_locality := "Caen", postal_code := "14000", other := [] }

/-- The `{error}` result object built by the catch handlers. -/
def mkErrorObj (e : String) : JsValue :=
  JsValue.vobj [("error", JsValue.vstr e)]

/-- The single-organization read (`getOrganizationByIdQuery` followed by
`formatOrganizationForAPI`): the organization row plus the aggregated
`contactPoints` column, address fields nested.  When no row matches,
`first()` yields undefined and omit/pick of undefined both give the empty
object, so the result is a bare nested empty address. -/
def readOrganizationApi (db : Db) (organizationId : Int) : JsValue :=
  match db.organizations.find? (fun r => r.id == organizationId) with
  | some row =>
      JsValue.vobj (formatOrganizationForAPI
        (setField (setField row.fields "id" (JsValue.vnum row.id))
          "contactPoints" (contactPointsColumn db row.id)))
  | none => JsValue.vobj (formatOrganizationForAPI [])

/-- Failure oracle for `createOrganization`: the organization INSERT, each
contact-point INSERT, and the re-read may fail. -/
structure CreateOracle where
  orgInsertFail : Option String
  contactInsertFails : List (Option String)
  readBackFail : Option String

/-- The first failure among the first `n` contact inserts. -/
def firstContactFail (fails : List (Option String)) (n : Nat) : Option String :=
  ((fails.take n).filterMap (fun x => x)).head?

/-- `createOrganization` (repository.js lines 179-220): on any failure
inside the transaction, `trx.rollback` undoes everything and the outer
catch resolves with `{error}`; on commit the aggregate is re-read (a
failure there is also caught). -/
def createOrganization (db : Db) (apiData : JsObj) (o : CreateOracle) :
    Db × Except String JsValue :=
  match o.orgInsertFail with
  | some e => (db, Except.ok (mkErrorObj e))
  | none =>
      match firstContactFail o.contactInsertFails
          (prepareOrganizationDataForSave apiData).contactPoints.length with
      | some e => (db, Except.ok (mkErrorObj e))
      | none =>
          match o.readBackFail with
          | some e => ((createOrganizationDb db apiData).1, Except.ok (mkErrorObj e))
          | none => ((createOrganizationDb db apiData).1,
              Except.ok (readOrganizationApi (createOrganizationDb db apiData).1
                (createOrganizationDb db apiData).2))

/-- Failure oracle for `updateOrganization`: any statement of the
transaction, and the re-read, may fail. -/
structure UpdateOracle where
  trxFail : Option String
  readBackFail : Option String

/-- `updateOrganization` (repository.js lines 273-348): the transaction is
awaited inside try/catch returning `{error}`; the re-read has its own
catch. -/
def updateOrganization (db : Db) (organizationId : Int) (apiData : JsObj) (o : UpdateOracle) :
    Db × Except String JsValue :=
  match o.trxFail with
  | some e => (db, Except.ok (mkErrorObj e))
  | none =>
      match o.readBackFail with
      | some e => (updateOrganizationDb db organizationId apiData, Except.ok (mkErrorObj e))
      | none => (updateOrganizationDb db organizationId apiData,
          Except.ok (readOrganizationApi
            (updateOrganizationDb db organizationId apiData) organizationId))

/-- `getOrganization` (repository.js lines 229-233): read and format, with
a catch converting failures to `{error}`. -/
def getOrganization (db : Db) (organizationId : Int) (queryFail : Option String) :
    Db × Except String JsValue :=
  match queryFail with
  | some e => (db, Except.ok (mkErrorObj e))
  | none => (db, Except.ok (readOrganizationApi db organizationId))

/-- `deleteOrganization` (repository.js lines 242-250): DELETE matching
rows; a truthy deletion count resolves with the id object, zero resolves
with the empty object, failures are caught into `{error}`. -/
def deleteOrganization (db : Db) (organizationId : Int) (delFail : Option String) :
    Db × Except String JsValue :=
  match delFail with
  | some e => (db, Except.ok (mkErrorObj e))
  | none =>
      ({ db with organizations := db.organizations.filter (fun r => r.id != organizationId) },
        Except.ok
          (if (db.organizations.filter (fun r => r.id == organizationId)).length != 0
            then JsValue.vobj [("id", JsValue.vnum organizationId)]
            else JsValue.vobj []))

/-- `getOrganizationPaginatedList` (repository.js lines 103-122): the
promise chain has no catch, so a query failure rejects past the facade
boundary; on success the page rows (produced by the external paginate
plugin) are formatted and wrapped with the pagination metadata. -/
def getOrganizationPaginatedList (pageRows : List JsObj)
    (perPage currentPage : Int) (queryFail : Option String) : Except String JsValue :=
  match queryFail with
  | some e => Except.error e
  | none =>
      Except.ok (JsValue.vobj
        [("organizations", JsValue.varr
            (pageRows.map (fun r => JsValue.vobj (formatOrganizationForAPI r)))),
         ("pagination", JsValue.vobj
            [("perPage", JsValue.vnum perPage), ("currentPage", JsValue.vnum currentPage)])])

/-- The failing-contact-insert oracle. -/
def exCreateOracle : CreateOracle :=
  { orgInsertFail := none, contactInsertFails := [some "boom"], readBackFail := none }

/-- A create payload with one contact point. -/
def exCreatePayload : JsObj :=
  [("name", JsValue.vstr "Org"),
   ("address", JsValue.vobj
      [("addressCountry", JsValue.vstr "FR"),
       ("addressLocality", JsValue.vstr "Caen"),
       ("postalCode", JsValue.vstr "14000"),
       ("streetAddress", JsValue.vstr "1 rue")]),
   ("contactPoints", JsValue.varr [JsValue.vobj [("contactType", JsValue.vstr "phone")]])]

/-- A stored state with a single organization of id 3. -/
def exDelDb : Db :=
  { organizations := [⟨3, []⟩], contacts := [], nextOrgId := 4, nextContactId := 1 }

/-! ## Theorems -/

/-- Helper: membership of a number among the truthy payload identifiers. -/
theorem any_filter_map_identifier (payload : List JsObj) (id : Int) :
    ((payload.map getIdentifier).filter truthy).any (strictEqNum id)
      = payload.any (fun o => truthy (getIdentifier o) && strictEqNum id (getIdentifier o)) := by
  induction payload with
  | nil => rfl
  | cons c rest ih =>
      simp only [List.map_cons, List.filter_cons, List.any_cons]
      by_cases h : truthy (getIdentifier c)
      · simp [h, ih]
      · simp [h, ih]

theorem getField_setField (o : JsObj) (k k' : String) (v : JsValue) :
    getField (setField o k v) k' = if k = k' then some v else getField o k' := by
  induction o with
  | nil =>
      by_cases h : k = k' <;> simp [setField, getField, h]
  | cons p rest ih =>
      obtain ⟨k0, v0⟩ := p
      by_cases h0 : k0 = k
      · subst h0
        by_cases h1 : k0 = k' <;> simp [setField, getField, h1]
      · by_cases h1 : k0 = k'
        · subst h1
          have h2 : ¬ k = k0 := fun hh => h0 hh.symm
          simp [setField, getField, h0, h2]
        · simp [setField, getField, h0, h1, ih]

theorem omitKeys_cons (k0 : String) (v0 : JsValue) (rest : JsObj) (ks : List String) :
    omitKeys ((k0, v0) :: rest) ks
      = if k0 ∈ ks then omitKeys rest ks else (k0, v0) :: omitKeys rest ks := by
  by_cases hmem : k0 ∈ ks <;> simp [omitKeys, List.filter_cons, hmem]

theorem getField_omitKeys (o : JsObj) (ks : List String) (k : String) :
    getField (omitKeys o ks) k = if k ∈ ks then none else getField o k := by
  induction o with
  | nil => simp [omitKeys, getField]
  | cons p rest ih =>
      obtain ⟨k0, v0⟩ := p
      rw [omitKeys_cons]
      by_cases hmem : k0 ∈ ks
      · rw [if_pos hmem, ih]
        by_cases hk : k0 = k
        · subst hk
          simp [getField, hmem]
        · simp [getField, hk]
      · rw [if_neg hmem]
        by_cases hk : k0 = k
        · subst hk
          simp [getField, hmem]
        · simp [getField, hk, ih]

/-- C3 counterexample: with all four address fields present, the round
trip does not reproduce the payload: a present-but-empty `addressCountry`
comes back as null (the `|| null` coercion), and a top-level scalar field
named `postalCode` does not pass through (it is flattened over and then
swallowed into `address`). -/
theorem formatOrganization_roundtrip_counterexample :
    getField (formatOrganizationForAPI
        (prepareOrganizationDataForSave exPayloadAddr).organization) "address"
      = some (JsValue.vobj
          [("addressCountry", JsValue.vnull),
           ("addressLocality", JsValue.vstr "Caen"),
           ("postalCode", JsValue.vstr "14000"),
           ("streetAddress", JsValue.vstr "1 rue")])
    ∧ getField (objFields (getFieldD exPayloadAddr "address")) "addressCountry"
        = some (JsValue.vstr "")
    ∧ getField (formatOrganizationForAPI
        (prepareOrganizationDataForSave exPayloadAddr).organization) "postalCode" = none
    ∧ getField exPayloadAddr "postalCode" = some (JsValue.vstr "99") :=
  ⟨rfl, rfl, rfl, rfl⟩

/-- C3 (amended): for a payload whose `address` object carries all four
address fields, with `addressCountry` truthy or null, the composition
`formatOrganizationForAPI (prepareOrganizationDataForSave x).organization`
rebuilds an `address` object holding exactly the payload's four address
values, and every other field whose key is not `address`, `contactPoints`
or one of the four flat address column names passes through unchanged. -/
theorem formatOrganization_roundtrip (x : JsObj) (a : JsObj) (c l p s : JsValue)
    (haddr : getField x "address" = some (JsValue.vobj a))
    (hc : getField a "addressCountry" = some c)
    (hl : getField a "addressLocality" = some l)
    (hp : getField a "postalCode" = some p)
    (hs : getField a "streetAddress" = some s)
    (hct : truthy c = true ∨ c = JsValue.vnull) :
    getField (formatOrganizationForAPI
        (prepareOrganizationDataForSave x).organization) "address"
      = some (JsValue.vobj
          [("addressCountry", c), ("addressLocality", l),
           ("postalCode", p), ("streetAddress", s)])
    ∧ ∀ k : String,
        k ∉ ["address", "contactPoints", "addressCountry", "addressLocality",
          "postalCode", "streetAddress"] →
        getField (formatOrganizationForAPI
            (prepareOrganizationDataForSave x).organization) k = getField x k := by
  have hbase : objFields (getFieldD x "address") = a := by
    simp [getFieldD, haddr, objFields]
  have hcc : (if truthy (getFieldD a "addressCountry")
      then getFieldD a "addressCountry" else JsValue.vnull) = c := by
    rcases hct with h | h
    · simp [getFieldD, hc, h]
    · subst h
      simp [getFieldD, hc, truthy]
  have gs : getField (prepareOrganizationDataForSave x).organization "streetAddress" = some s := by
    simp [prepareOrganizationDataForSave, getField_setField, getFieldD, haddr, objFields, hs]
  have gp : getField (prepareOrganizationDataForSave x).organization "postalCode" = some p := by
    simp [prepareOrganizationDataForSave, getField_setField, getFieldD, haddr, objFields, hp]
  have gl : getField (prepareOrganizationDataForSave x).organization "addressLocality" = some l := by
    simp [prepareOrganizationDataForSave, getField_setField, getFieldD, haddr, objFields, hl]
  have gc : getField (prepareOrganizationDataForSave x).organization "addressCountry" = some c := by
    simp only [prepareOrganizationDataForSave, getField_setField, hbase]
    simp [hcc]
  have hpick : pickKeys (prepareOrganizationDataForSave x).organization addressFieldNames
      = [("addressCountry", c), ("addressLocality", l), ("postalCode", p), ("streetAddress", s)] := by
    simp [pickKeys, addressFieldNames, gs, gp, gl, gc]
  constructor
  · simp [formatOrganizationForAPI, getField_setField, hpick]
  · intro k hk
    simp only [List.mem_cons, List.not_mem_nil, or_false, not_or] at hk
    obtain ⟨h1, h2, h3, h4, h5, h6⟩ := hk
    have n1 : ¬ ("address" = k) := fun hh => h1 hh.symm
    have n3 : ¬ ("addressCountry" = k) := fun hh => h3 hh.symm
    have n4 : ¬ ("addressLocality" = k) := fun hh => h4 hh.symm
    have n5 : ¬ ("postalCode" = k) := fun hh => h5 hh.symm
    have n6 : ¬ ("streetAddress" = k) := fun hh => h6 hh.symm
    have hmem : k ∉ addressFieldNames := by
      simp [addressFieldNames, h3, h4, h5, h6]
    have hmem2 : k ∉ ["address", "contactPoints"] := by
      simp [h1, h2]
    simp [formatOrganizationForAPI, getField_setField, getField_omitKeys, n1, hmem,
      prepareOrganizationDataForSave, n3, n4, n5, n6, hmem2]

/-- Witness for the amended round trip at a concrete payload. -/
theorem formatOrganization_roundtrip_witness :
    getField exPayloadAddrOk "address" = some (JsValue.vobj
      [("addressCountry", JsValue.vstr "FR"),
       ("addressLocality", JsValue.vstr "Caen"),
       ("postalCode", JsValue.vstr "14000"),
       ("streetAddress", JsValue.vstr "1 rue")])
    ∧ getField (formatOrganizationForAPI
        (prepareOrganizationDataForSave exPayloadAddrOk).organization) "address"
      = some (JsValue.vobj
          [("addressCountry", JsValue.vstr "FR"),
           ("addressLocality", JsValue.vstr "Caen"),
           ("postalCode", JsValue.vstr "14000"),
           ("streetAddress", JsValue.vstr "1 rue")]) :=
  ⟨rfl,
    (formatOrganization_roundtrip exPayloadAddrOk
      [("addressCountry", JsValue.vstr "FR"),
       ("addressLocality", JsValue.vstr "Caen"),
       ("postalCode", JsValue.vstr "14000"),
       ("streetAddress", JsValue.vstr "1 rue")]
      (JsValue.vstr "FR") (JsValue.vstr "Caen") (JsValue.vstr "14000") (JsValue.vstr "1 rue")
      rfl rfl rfl rfl rfl (Or.inl rfl)).1⟩

/-- C2 counterexample: a payload entry whose identifier is the (falsy)
number 0 references db id 0, yet `getIdsToDelete` still deletes it, so the
function is not the pure set difference the claim states. -/
theorem getIdsToDelete_not_pure_set_difference :
    getIdsToDelete [0] [[("identifier", JsValue.vnum 0)]] = [0] ∧
      specDeletionSet [0] [[("identifier", JsValue.vnum 0)]] = [] := by
  constructor <;> rfl

/-- C2 (amended): `getIdsToDelete` returns exactly the elements of
`idsInDb` not referenced by a truthy identifier of a payload entry; falsy
identifiers (absent, null, 0, empty string) are ignored, so an id they
reference is still deleted.  The empty-snapshot, empty-payload and
`[a,b,c]` versus `[identifier a, identifier d]` examples behave as the
claim states. -/
theorem getIdsToDelete_spec :
    (∀ (idsInDb : List Int) (payload : List JsObj),
      getIdsToDelete idsInDb payload
        = idsInDb.filter (fun id =>
            !(payload.any (fun o =>
                truthy (getIdentifier o) && strictEqNum id (getIdentifier o)))))
    ∧ getIdsToDelete [] [[("identifier", JsValue.vnum 7)]] = []
    ∧ getIdsToDelete [1, 2, 3] [] = [1, 2, 3]
    ∧ getIdsToDelete [1, 2, 3]
        [[("identifier", JsValue.vnum 1)], [("identifier", JsValue.vnum 4)]] = [2, 3] := by
  refine ⟨?_, rfl, rfl, rfl⟩
  intro idsInDb payload
  unfold getIdsToDelete
  apply List.filter_congr
  intro id _
  rw [any_filter_map_identifier]

/-- C4: an update payload entry whose identifier is truthy but absent from
the pre-update snapshot contributes no statement at all (neither update
nor insert), and removing it from the payload changes nothing: in
particular it does not change the deletion set. -/
theorem staleIdentifierDropped (db : Db) (orgId : Int) (pre post : List JsObj) (c : JsObj)
    (htruthy : truthy (getIdentifier c) = true)
    (hstale : idsInclude (existingContactIds db orgId) (getIdentifier c) = false) :
    contactStmtsFor (existingContactIds db orgId) orgId c = []
    ∧ updateOrganizationContacts db orgId (pre ++ c :: post)
        = updateOrganizationContacts db orgId (pre ++ post) := by
  have hstmts : contactStmtsFor (existingContactIds db orgId) orgId c = [] := by
    simp [contactStmtsFor, htruthy, hstale]
  refine ⟨hstmts, ?_⟩
  have hdel : getIdsToDelete (existingContactIds db orgId) (pre ++ c :: post)
      = getIdsToDelete (existingContactIds db orgId) (pre ++ post) := by
    unfold getIdsToDelete
    apply List.filter_congr
    intro id hid
    have hzero : strictEqNum id (getIdentifier c) = false := by
      by_contra hcon
      have heq : strictEqNum id (getIdentifier c) = true := by
        revert hcon
        cases strictEqNum id (getIdentifier c) <;> simp
      have hinc : idsInclude (existingContactIds db orgId) (getIdentifier c) = true := by
        unfold idsInclude
        exact List.any_eq_true.mpr ⟨id, hid, heq⟩
      rw [hinc] at hstale
      cases hstale
    simp [List.map_append, List.filter_append, List.any_append, htruthy, hzero]
  unfold updateOrganizationContacts
  simp only [List.flatMap_append, List.flatMap_cons, hstmts, hdel, List.nil_append,
    List.append_nil]

/-- C10: an update payload entry with a falsy identifier (absent, null, 0
or empty string) is handled purely as an insert: it produces exactly one
insert statement for this organization (never an update), an insert
appends a fresh-id row holding the entry's fields, and the falsy
identifier is excluded from the referenced ids, so it never protects any
snapshot id from deletion. -/
theorem falsyIdentifierInsertsAsNew (existing : List Int) (orgId : Int) (c : JsObj)
    (hfalsy : truthy (getIdentifier c) = false) :
    contactStmtsFor existing orgId c = [ContactStmt.ins orgId c]
    ∧ (∀ db : Db, applyContactStmt db (ContactStmt.ins orgId c)
        = { db with
            contacts := db.contacts ++ [⟨db.nextContactId, orgId, c⟩]
            nextContactId := db.nextContactId + 1 })
    ∧ ∀ (idsInDb : List Int) (pre post : List JsObj),
        getIdsToDelete idsInDb (pre ++ c :: post) = getIdsToDelete idsInDb (pre ++ post) := by
  refine ⟨by simp [contactStmtsFor, hfalsy], fun db => rfl, ?_⟩
  intro idsInDb pre post
  unfold getIdsToDelete
  simp [List.map_append, List.filter_append, hfalsy]

theorem updOf_nil (r : ContactRow) : updOf [] r = r := rfl

theorem updOf_id (us : List (Int × JsObj)) (r : ContactRow) : (updOf us r).id = r.id := by
  unfold updOf
  cases us.find? (fun p => p.1 == r.id) <;> rfl

theorem updOf_orgId (us : List (Int × JsObj)) (r : ContactRow) :
    (updOf us r).organizationId = r.organizationId := by
  unfold updOf
  cases us.find? (fun p => p.1 == r.id) <;> rfl

theorem updOf_not_mem (us : List (Int × JsObj)) (r : ContactRow)
    (h : ∀ p ∈ us, p.1 ≠ r.id) : updOf us r = r := by
  unfold updOf
  rw [List.find?_eq_none.mpr]
  intro p hp
  simpa using h p hp

theorem updOf_cons_applyUpd (i : Int) (f0 : JsObj) (us : List (Int × JsObj)) (r : ContactRow)
    (hni : ∀ p ∈ us, p.1 ≠ i) :
    updOf us (applyUpd i f0 r) = updOf ((i, f0) :: us) r := by
  by_cases hr : r.id = i
  · have happ : applyUpd i f0 r = { r with fields := mergeFields r.fields f0 } := by
      simp [applyUpd, hr]
    rw [happ]
    have h1 : updOf us { r with fields := mergeFields r.fields f0 }
        = { r with fields := mergeFields r.fields f0 } := by
      apply updOf_not_mem
      intro p hp
      simpa [hr] using hni p hp
    rw [h1]
    unfold updOf
    simp [List.find?_cons, hr]
  · have happ : applyUpd i f0 r = r := by
      simp [applyUpd, hr]
    rw [happ]
    unfold updOf
    have : (i == r.id) = false := by
      simp
      exact fun hh => hr hh.symm
    simp [List.find?_cons, this]

theorem idsInclude_vnum (ids : List Int) (v : JsValue) (h : idsInclude ids v = true) :
    ∃ n, v = JsValue.vnum n := by
  unfold idsInclude at h
  obtain ⟨i, _, hs⟩ := List.any_eq_true.mp h
  cases v <;> simp [strictEqNum] at hs
  exact ⟨_, rfl⟩

theorem idsInclude_mem (ids : List Int) (n : Int) (h : idsInclude ids (JsValue.vnum n) = true) :
    n ∈ ids := by
  unfold idsInclude at h
  obtain ⟨i, hi, hs⟩ := List.any_eq_true.mp h
  have : n = i := by simpa [strictEqNum] using hs
  simpa [this] using hi

theorem insertedRows_le (startId : Int) (orgId : Int) (fs : List JsObj) :
    ∀ r ∈ insertedRows startId orgId fs, startId ≤ r.id := by
  induction fs generalizing startId with
  | nil => intro r hr; cases hr
  | cons f rest ih =>
      intro r hr
      simp only [insertedRows, List.mem_cons] at hr
      rcases hr with rfl | hr
      · simp
      · have := ih (startId + 1) r hr
        omega

/-- Characterization of the update/insert phase of the reconciliation: in
payload order, updates merge columns into the targeted rows and inserts
append fresh-id rows, provided update targets are distinct existing ids
below the serial counter. -/
theorem foldl_payload_stmts (existing : List Int) (orgId : Int) (payload : List JsObj) :
    ∀ db : Db,
      (∀ p ∈ updatesOf existing payload, p.1 < db.nextContactId) →
      ((updatesOf existing payload).map Prod.fst).Nodup →
      (payload.flatMap (contactStmtsFor existing orgId)).foldl applyContactStmt db
        = { db with
            contacts := db.contacts.map (updOf (updatesOf existing payload))
              ++ insertedRows db.nextContactId orgId (insertsOf payload)
            nextContactId := db.nextContactId + ((insertsOf payload).length : Int) } := by
  induction payload with
  | nil =>
      intro db hup hnd
      have h0 : updatesOf existing ([] : List JsObj) = [] := rfl
      have h1 : insertsOf ([] : List JsObj) = [] := rfl
      simp only [List.flatMap_nil, List.foldl_nil, h0, h1, insertedRows, List.append_nil,
        List.length_nil, Nat.cast_zero, add_zero]
      have hmap : db.contacts.map (updOf []) = db.contacts := by
        rw [List.map_congr_left (fun a _ => updOf_nil a)]
        simp
      rw [hmap]
  | cons c rest ih =>
      intro db hup hnd
      rw [List.flatMap_cons, List.foldl_append]
      by_cases ht : truthy (getIdentifier c)
      · by_cases hin : idsInclude existing (getIdentifier c)
        · obtain ⟨i, hi⟩ := idsInclude_vnum existing _ hin
          have hstmts : contactStmtsFor existing orgId c
              = [ContactStmt.upd i (omitKeys c ["identifier"])] := by
            rw [contactStmtsFor, ht, hin, hi]
            simp
          have hus : updatesOf existing (c :: rest)
              = (i, omitKeys c ["identifier"]) :: updatesOf existing rest := by
            rw [updatesOf, List.filterMap_cons, ht, hin, hi]
            simp [updatesOf]
          have hins : insertsOf (c :: rest) = insertsOf rest := by
            simp [insertsOf, List.filter_cons, ht]
          rw [hstmts]
          simp only [List.foldl_cons, List.foldl_nil, applyContactStmt]
          rw [hus] at hup hnd
          have hup' : ∀ p ∈ updatesOf existing rest, p.1 < db.nextContactId := by
            intro p hp
            exact hup p (List.mem_cons_of_mem _ hp)
          rw [List.map_cons] at hnd
          have hcons := List.nodup_cons.mp hnd
          have hnd' : ((updatesOf existing rest).map Prod.fst).Nodup := hcons.2
          have hni : ∀ p ∈ updatesOf existing rest, p.1 ≠ i := by
            intro p hp hcon
            have hm : p.1 ∈ (updatesOf existing rest).map Prod.fst :=
              List.mem_map_of_mem Prod.fst hp
            rw [hcon] at hm
            exact hcons.1 hm
          rw [ih { db with
              contacts := List.map (applyUpd i (omitKeys c ["identifier"])) db.contacts }
            hup' hnd']
          rw [hus, hins]
          congr 1
          rw [List.map_map]
          congr 1
          apply List.map_congr_left
          intro r _
          exact updOf_cons_applyUpd i (omitKeys c ["identifier"]) (updatesOf existing rest) r hni
        · have hstmts : contactStmtsFor existing orgId c = [] := by
            simp [contactStmtsFor, ht, hin]
          have hus : updatesOf existing (c :: rest) = updatesOf existing rest := by
            simp [updatesOf, List.filterMap_cons, ht, hin]
          have hins : insertsOf (c :: rest) = insertsOf rest := by
            simp [insertsOf, List.filter_cons, ht]
          rw [hstmts]
          simp only [List.foldl_nil]
          rw [hus] at hup hnd
          rw [hus, hins]
          exact ih db hup hnd
      · have hstmts : contactStmtsFor existing orgId c = [ContactStmt.ins orgId c] := by
          simp [contactStmtsFor, ht]
        have hus : updatesOf existing (c :: rest) = updatesOf existing rest := by
          simp [updatesOf, List.filterMap_cons, ht]
        have hins : insertsOf (c :: rest) = c :: insertsOf rest := by
          simp [insertsOf, List.filter_cons, ht]
        rw [hstmts]
        simp only [List.foldl_cons, List.foldl_nil, applyContactStmt]
        rw [hus] at hup hnd
        have hup' : ∀ p ∈ updatesOf existing rest, p.1 < db.nextContactId + 1 := by
          intro p hp
          have := hup p hp
          omega
        rw [ih { db with
            contacts := db.contacts ++ [⟨db.nextContactId, orgId, c⟩]
            nextContactId := db.nextContactId + 1 } hup' hnd]
        rw [hus, hins]
        congr 1
        · rw [List.map_append]
          have hrow : (List.map (updOf (updatesOf existing rest)) [⟨db.nextContactId, orgId, c⟩])
              = [(⟨db.nextContactId, orgId, c⟩ : ContactRow)] := by
            simp only [List.map_cons, List.map_nil]
            rw [updOf_not_mem]
            intro p hp
            have := hup p hp
            simp only
            omega
          rw [hrow]
          rw [show insertedRows db.nextContactId orgId (c :: insertsOf rest)
              = (⟨db.nextContactId, orgId, c⟩ : ContactRow)
                :: insertedRows (db.nextContactId + 1) orgId (insertsOf rest) from rfl]
          simp [List.append_assoc]
        · simp only [List.length_cons]
          push_cast
          omega

/-- The delete statements remove exactly the rows whose id is listed. -/
theorem foldl_del_stmts (ids : List Int) :
    ∀ db : Db,
      ((ids.map ContactStmt.del).foldl applyContactStmt db)
        = { db with contacts := db.contacts.filter (fun r => !(ids.contains r.id)) } := by
  induction ids with
  | nil =>
      intro db
      simp
  | cons i rest ih =>
      intro db
      simp only [List.map_cons, List.foldl_cons, applyContactStmt]
      rw [ih]
      congr 1
      rw [List.filter_filter]
      apply List.filter_congr
      intro r _
      simp only [List.contains_cons, Bool.not_or]
      cases h1 : r.id == i <;> cases h2 : rest.contains r.id <;> simp [bne, h1, h2]

/-- Every update target belongs to the snapshot. -/
theorem updatesOf_fst_mem (existing : List Int) (payload : List JsObj) :
    ∀ p ∈ updatesOf existing payload, p.1 ∈ existing := by
  intro p hp
  obtain ⟨c, _, hc⟩ := List.mem_filterMap.mp hp
  by_cases hcond : truthy (getIdentifier c) && idsInclude existing (getIdentifier c)
  · rw [if_pos hcond] at hc
    obtain ⟨i, hi⟩ := idsInclude_vnum existing _ (Bool.and_elim_right hcond)
    rw [hi] at hc
    simp only at hc
    cases hc
    exact idsInclude_mem existing i (by rw [← hi]; exact Bool.and_elim_right hcond)
  · rw [if_neg hcond] at hc
    cases hc

/-- A non-numeric value is never strictly equal to a db id. -/
theorem idsInclude_non_num (ids : List Int) (v : JsValue)
    (h : ∀ n : Int, v ≠ JsValue.vnum n) : idsInclude ids v = false := by
  cases hb : idsInclude ids v
  · rfl
  · obtain ⟨n, hn⟩ := idsInclude_vnum ids v hb
    exact absurd hn (h n)

/-- The update targets are a sublist of the referenced ids, so distinct
referenced ids give distinct update targets. -/
theorem updatesOf_fst_sublist (existing : List Int) (payload : List JsObj) :
    ((updatesOf existing payload).map Prod.fst).Sublist (referencedIds payload) := by
  induction payload with
  | nil => simp [updatesOf, referencedIds]
  | cons c rest ih =>
      cases hident : getIdentifier c with
      | vnum i =>
          by_cases hz : i = 0
          · have h1 : updatesOf existing (c :: rest) = updatesOf existing rest := by
              simp [updatesOf, List.filterMap_cons, hident, truthy, hz]
            have h2 : referencedIds (c :: rest) = referencedIds rest := by
              simp [referencedIds, List.filterMap_cons, truthyIdentOf, hident, hz]
            rw [h1, h2]
            exact ih
          · have h2 : referencedIds (c :: rest) = i :: referencedIds rest := by
              simp [referencedIds, List.filterMap_cons, truthyIdentOf, hident, hz]
            by_cases hin : idsInclude existing (JsValue.vnum i)
            · have h1 : updatesOf existing (c :: rest)
                  = (i, omitKeys c ["identifier"]) :: updatesOf existing rest := by
                simp [updatesOf, List.filterMap_cons, hident, truthy, hz, hin]
              rw [h1, h2, List.map_cons]
              exact List.Sublist.cons₂ i ih
            · have h1 : updatesOf existing (c :: rest) = updatesOf existing rest := by
                simp [updatesOf, List.filterMap_cons, hident, truthy, hz, hin]
              rw [h1, h2]
              exact List.Sublist.cons i ih
      | vundef =>
          have h1 : updatesOf existing (c :: rest) = updatesOf existing rest := by
            simp [updatesOf, List.filterMap_cons, hident, truthy]
          have h2 : referencedIds (c :: rest) = referencedIds rest := by
            simp [referencedIds, List.filterMap_cons, truthyIdentOf, hident]
          rw [h1, h2]
          exact ih
      | vnull =>
          have h1 : updatesOf existing (c :: rest) = updatesOf existing rest := by
            simp [updatesOf, List.filterMap_cons, hident, truthy]
          have h2 : referencedIds (c :: rest) = referencedIds rest := by
            simp [referencedIds, List.filterMap_cons, truthyIdentOf, hident]
          rw [h1, h2]
          exact ih
      | vbool b =>
          have h1 : updatesOf existing (c :: rest) = updatesOf existing rest := by
            have : idsInclude existing (JsValue.vbool b) = false :=
              idsInclude_non_num existing _ (fun n hn => by cases hn)
            simp [updatesOf, List.filterMap_cons, hident, this]
          have h2 : referencedIds (c :: rest) = referencedIds rest := by
            simp [referencedIds, List.filterMap_cons, truthyIdentOf, hident]
          rw [h1, h2]
          exact ih
      | vstr s =>
          have h1 : updatesOf existing (c :: rest) = updatesOf existing rest := by
            have : idsInclude existing (JsValue.vstr s) = false :=
              idsInclude_non_num existing _ (fun n hn => by cases hn)
            simp [updatesOf, List.filterMap_cons, hident, this]
          have h2 : referencedIds (c :: rest) = referencedIds rest := by
            simp [referencedIds, List.filterMap_cons, truthyIdentOf, hident]
          rw [h1, h2]
          exact ih
      | vobj f =>
          have h1 : updatesOf existing (c :: rest) = updatesOf existing rest := by
            have : idsInclude existing (JsValue.vobj f) = false :=
              idsInclude_non_num existing _ (fun n hn => by cases hn)
            simp [updatesOf, List.filterMap_cons, hident, this]
          have h2 : referencedIds (c :: rest) = referencedIds rest := by
            simp [referencedIds, List.filterMap_cons, truthyIdentOf, hident]
          rw [h1, h2]
          exact ih
      | varr es =>
          have h1 : updatesOf existing (c :: rest) = updatesOf existing rest := by
            have : idsInclude existing (JsValue.varr es) = false :=
              idsInclude_non_num existing _ (fun n hn => by cases hn)
            simp [updatesOf, List.filterMap_cons, hident, this]
          have h2 : referencedIds (c :: rest) = referencedIds rest := by
            simp [referencedIds, List.filterMap_cons, truthyIdentOf, hident]
          rw [h1, h2]
          exact ih

/-- The deletion set is drawn from the snapshot. -/
theorem getIdsToDelete_subset (ids : List Int) (payload : List JsObj) :
    ∀ x ∈ getIdsToDelete ids payload, x ∈ ids := by
  intro x hx
  simp only [getIdsToDelete] at hx
  exact List.mem_of_mem_filter hx

/-- Normal form of `updateOrganizationContacts`: under distinct referenced
ids and a consistent serial counter, the final table keeps every row not
in the deletion set (with the targeted updates merged in, ids unchanged)
and appends one fresh-id row per identifier-less payload entry. -/
theorem updateOrganizationContacts_normal (db : Db) (orgId : Int) (payload : List JsObj)
    (hlt : ∀ r ∈ db.contacts, r.id < db.nextContactId)
    (hnd : (referencedIds payload).Nodup) :
    updateOrganizationContacts db orgId payload
      = { db with
          contacts :=
            ((db.contacts.filter (fun r =>
              !((getIdsToDelete (existingContactIds db orgId) payload).contains r.id))).map
              (updOf (updatesOf (existingContactIds db orgId) payload)))
            ++ insertedRows db.nextContactId orgId (insertsOf payload)
          nextContactId := db.nextContactId + ((insertsOf payload).length : Int) } := by
  have hexlt : ∀ i ∈ existingContactIds db orgId, i < db.nextContactId := by
    intro i hi
    obtain ⟨r, hr, hid⟩ := List.mem_map.mp hi
    have hrmem : r ∈ db.contacts := List.mem_of_mem_filter hr
    rw [← hid]
    exact hlt r hrmem
  have hup : ∀ p ∈ updatesOf (existingContactIds db orgId) payload, p.1 < db.nextContactId := by
    intro p hp
    exact hexlt p.1 (updatesOf_fst_mem _ _ p hp)
  have hndu : ((updatesOf (existingContactIds db orgId) payload).map Prod.fst).Nodup :=
    hnd.sublist (updatesOf_fst_sublist _ _)
  show ((payload.flatMap (contactStmtsFor (existingContactIds db orgId) orgId)
      ++ (getIdsToDelete (existingContactIds db orgId) payload).map ContactStmt.del).foldl
      applyContactStmt db) = _
  rw [List.foldl_append]
  rw [foldl_payload_stmts _ _ _ db hup hndu]
  rw [foldl_del_stmts]
  congr 1
  rw [List.filter_append]
  congr 1
  · rw [List.filter_map]
    congr 1
    apply List.filter_congr
    intro r _
    simp [Function.comp, updOf_id]
  · apply List.filter_eq_self.mpr
    intro r hr
    have hge := insertedRows_le db.nextContactId orgId (insertsOf payload) r hr
    have hnotmem : r.id ∉ getIdsToDelete (existingContactIds db orgId) payload := by
      intro hmem
      have h1 : r.id ∈ existingContactIds db orgId := getIdsToDelete_subset _ _ r.id hmem
      have h2 := hexlt r.id h1
      omega
    simp [hnotmem]

/-- A truthy identifier match among the payload identifiers is exactly
membership in the referenced ids. -/
theorem idsApi_any_iff_referenced (payload : List JsObj) (id : Int) :
    ((((payload.map getIdentifier).filter truthy).any (strictEqNum id)) = true)
      ↔ id ∈ referencedIds payload := by
  rw [any_filter_map_identifier]
  constructor
  · intro h
    obtain ⟨c, hc, hb⟩ := List.any_eq_true.mp h
    obtain ⟨hb1, hb2⟩ : truthy (getIdentifier c) = true ∧ strictEqNum id (getIdentifier c) = true := by simpa using hb
    refine List.mem_filterMap.mpr ⟨c, hc, ?_⟩
    cases hident : getIdentifier c <;> (rw [hident] at hb1 hb2; simp [strictEqNum] at hb2)
    case vnum m =>
      have hm : m ≠ 0 := by simpa [truthy] using hb1
      unfold truthyIdentOf
      rw [hident]
      simp [hb2, hm]
      omega
  · intro h
    obtain ⟨c, hc, hsome⟩ := List.mem_filterMap.mp h
    apply List.any_eq_true.mpr
    refine ⟨c, hc, ?_⟩
    unfold truthyIdentOf at hsome
    cases hident : getIdentifier c <;> rw [hident] at hsome <;> simp at hsome
    case vnum i =>
      by_cases hz : i = 0
      · simp [hz] at hsome
      · simp [hz] at hsome
        subst hsome
        simp [truthy, strictEqNum, hz]

/-- For an id in the snapshot, surviving deletion is exactly being
referenced by a truthy payload identifier. -/
theorem keep_iff_referenced (existing : List Int) (payload : List JsObj) (id : Int)
    (hid : id ∈ existing) :
    (!((getIdsToDelete existing payload).contains id))
      = ((referencedIds payload).contains id) := by
  have hmem : id ∈ getIdsToDelete existing payload
      ↔ (((payload.map getIdentifier).filter truthy).any (strictEqNum id)) = false := by
    simp only [getIdsToDelete, List.mem_filter, Bool.not_eq_true']
    constructor
    · intro h
      exact h.2
    · intro h
      exact ⟨hid, h⟩
  by_cases h : id ∈ referencedIds payload
  · have h1 : (((payload.map getIdentifier).filter truthy).any (strictEqNum id)) = true :=
      (idsApi_any_iff_referenced payload id).mpr h
    have h2 : id ∉ getIdsToDelete existing payload := by
      rw [hmem, h1]
      simp
    simp [h, h2]
  · have h1 : (((payload.map getIdentifier).filter truthy).any (strictEqNum id)) = false := by
      cases hb : ((payload.map getIdentifier).filter truthy).any (strictEqNum id)
      · rfl
      · exact absurd ((idsApi_any_iff_referenced payload id).mp hb) h
    have h2 : id ∈ getIdsToDelete existing payload := hmem.mpr h1
    simp [h, h2]

/-- A falsy identifier contributes no referenced id. -/
theorem truthyIdentOf_eq_none (c : JsObj) (h : truthy (getIdentifier c) = false) :
    truthyIdentOf c = none := by
  unfold truthyIdentOf
  cases hident : getIdentifier c
  all_goals rw [hident] at h
  all_goals simp_all [truthy]

/-- Under well-formed identifiers, every payload entry is exactly one of:
referenced update or insert; hence the counts add up. -/
theorem referenced_inserts_length (existing : List Int) (payload : List JsObj)
    (hvalid : payload.all (identValid existing) = true) :
    (referencedIds payload).length + (insertsOf payload).length = payload.length := by
  induction payload with
  | nil => rfl
  | cons c rest ih =>
      have hsplit : identValid existing c = true ∧ rest.all (identValid existing) = true := by
        simpa using hvalid
      obtain ⟨hc, hrest⟩ := hsplit
      by_cases ht : truthy (getIdentifier c)
      · have hins : insertsOf (c :: rest) = insertsOf rest := by
          simp [insertsOf, List.filter_cons, ht]
        have href : ∃ i, referencedIds (c :: rest) = i :: referencedIds rest := by
          unfold identValid at hc
          rw [if_pos ht] at hc
          cases hident : getIdentifier c <;> rw [hident] at hc <;> simp at hc
          case vnum i =>
            have hz : i ≠ 0 := by
              have ht2 := ht
              rw [hident] at ht2
              simpa [truthy] using ht2
            refine ⟨i, ?_⟩
            simp [referencedIds, List.filterMap_cons, truthyIdentOf, hident, hz]
        obtain ⟨i, hi⟩ := href
        rw [hi, hins, List.length_cons, List.length_cons]
        have := ih hrest
        omega
      · have htf : truthy (getIdentifier c) = false := by simpa using ht
        have hins : insertsOf (c :: rest) = c :: insertsOf rest := by
          simp [insertsOf, List.filter_cons, ht]
        have href : referencedIds (c :: rest) = referencedIds rest := by
          simp [referencedIds, List.filterMap_cons, truthyIdentOf_eq_none c htf]
        rw [hins, href]
        simp only [List.length_cons]
        have := ih hrest
        omega

theorem referenced_mem_existing (existing : List Int) (payload : List JsObj)
    (hvalid : payload.all (identValid existing) = true) :
    ∀ x ∈ referencedIds payload, x ∈ existing := by
  intro x hx
  obtain ⟨c, hc, hsome⟩ := List.mem_filterMap.mp hx
  have hcv : identValid existing c = true := List.all_eq_true.mp hvalid c hc
  unfold truthyIdentOf at hsome
  cases hident : getIdentifier c <;> rw [hident] at hsome <;> simp at hsome
  case vnum i =>
      by_cases hz : i = 0
      · simp [hz] at hsome
      · simp [hz] at hsome
        subst hsome
        unfold identValid at hcv
        rw [hident] at hcv
        simp [truthy, hz] at hcv
        exact hcv

theorem insertedRows_length (n : Int) (o : Int) (fs : List JsObj) :
    (insertedRows n o fs).length = fs.length := by
  induction fs generalizing n with
  | nil => rfl
  | cons f rest ih =>
      simp [insertedRows, ih]

theorem insertedRows_org (n : Int) (o : Int) (fs : List JsObj) :
    ∀ r ∈ insertedRows n o fs, r.organizationId = o := by
  induction fs generalizing n with
  | nil => intro r hr; cases hr
  | cons f rest ih =>
      intro r hr
      simp only [insertedRows, List.mem_cons] at hr
      rcases hr with rfl | hr
      · rfl
      · exact ih (n + 1) r hr

theorem insertedRows_ids_nodup (n : Int) (o : Int) (fs : List JsObj) :
    ((insertedRows n o fs).map (fun r => r.id)).Nodup := by
  induction fs generalizing n with
  | nil => simp [insertedRows]
  | cons f rest ih =>
      simp only [insertedRows, List.map_cons]
      rw [List.nodup_cons]
      constructor
      · intro hmem
        obtain ⟨r, hr, hid⟩ := List.mem_map.mp hmem
        have := insertedRows_le (n + 1) o rest r hr
        omega
      · exact ih (n + 1)

theorem insertedRows_filter_org (n : Int) (o : Int) (fs : List JsObj) :
    (insertedRows n o fs).filter (fun r => r.organizationId == o) = insertedRows n o fs := by
  apply List.filter_eq_self.mpr
  intro r hr
  simp [insertedRows_org n o fs r hr]

theorem foldl_ins_stmts (orgId : Int) (cs : List JsObj) :
    ∀ db : Db,
      cs.foldl (fun d c => applyContactStmt d (ContactStmt.ins orgId c)) db
        = { db with
            contacts := db.contacts ++ insertedRows db.nextContactId orgId cs
            nextContactId := db.nextContactId + (cs.length : Int) } := by
  induction cs with
  | nil =>
      intro db
      simp [insertedRows]
  | cons c rest ih =>
      intro db
      rw [List.foldl_cons, ih (applyContactStmt db (ContactStmt.ins orgId c))]
      simp only [applyContactStmt]
      congr 1
      · rw [show insertedRows db.nextContactId orgId (c :: rest)
            = (⟨db.nextContactId, orgId, c⟩ : ContactRow)
              :: insertedRows (db.nextContactId + 1) orgId rest from rfl]
        simp [List.append_assoc]
      · simp only [List.length_cons]
        push_cast
        omega

/-- Characterization of the successful create transaction: one new
organization row with the next serial id, and one fresh-id contact row per
payload contact point. -/
theorem createOrganizationDb_spec (db : Db) (apiData : JsObj) :
    (createOrganizationDb db apiData).2 = db.nextOrgId
    ∧ (createOrganizationDb db apiData).1
      = { db with
          organizations := db.organizations
            ++ [⟨db.nextOrgId, (prepareOrganizationDataForSave apiData).organization⟩]
          contacts := db.contacts ++ insertedRows db.nextContactId db.nextOrgId
            (prepareOrganizationDataForSave apiData).contactPoints
          nextOrgId := db.nextOrgId + 1
          nextContactId := db.nextContactId
            + (((prepareOrganizationDataForSave apiData).contactPoints).length : Int) } := by
  refine ⟨rfl, ?_⟩
  show ((prepareOrganizationDataForSave apiData).contactPoints.foldl
      (fun d c => applyContactStmt d (ContactStmt.ins db.nextOrgId c))
      { db with
        organizations := db.organizations
          ++ [⟨db.nextOrgId, (prepareOrganizationDataForSave apiData).organization⟩]
        nextOrgId := db.nextOrgId + 1 }) = _
  rw [foldl_ins_stmts db.nextOrgId _
    { db with
      organizations := db.organizations
        ++ [⟨db.nextOrgId, (prepareOrganizationDataForSave apiData).organization⟩]
      nextOrgId := db.nextOrgId + 1 }]

/-- The referenced rows of the snapshot are in bijection with the
referenced ids: filtering the organization's rows down to the referenced
ones yields exactly one row per referenced id. -/
theorem filter_referenced_length (db : Db) (orgId : Int) (payload : List JsObj)
    (hnodup : (db.contacts.map (fun r => r.id)).Nodup)
    (hvalid : payload.all (identValid (existingContactIds db orgId)) = true)
    (hnd : (referencedIds payload).Nodup) :
    ((orgContacts db orgId).filter (fun r => (referencedIds payload).contains r.id)).length
      = (referencedIds payload).length := by
  have hFsub : ((orgContacts db orgId).filter
      (fun r => (referencedIds payload).contains r.id)).Sublist db.contacts :=
    (List.filter_sublist _).trans (List.filter_sublist _)
  have hFnodup : (((orgContacts db orgId).filter
      (fun r => (referencedIds payload).contains r.id)).map (fun r => r.id)).Nodup :=
    hnodup.sublist (hFsub.map _)
  have hmem : ∀ x, x ∈ ((orgContacts db orgId).filter
      (fun r => (referencedIds payload).contains r.id)).map (fun r => r.id)
      ↔ x ∈ referencedIds payload := by
    intro x
    constructor
    · intro hx
      obtain ⟨r, hr, hid⟩ := List.mem_map.mp hx
      have h2 := List.of_mem_filter hr
      rw [← hid]
      simpa using h2
    · intro hx
      have hex : x ∈ existingContactIds db orgId :=
        referenced_mem_existing _ _ hvalid x hx
      unfold existingContactIds at hex
      obtain ⟨r, hr, hid⟩ := List.mem_map.mp hex
      apply List.mem_map.mpr
      refine ⟨r, ?_, hid⟩
      apply List.mem_filter.mpr
      refine ⟨hr, ?_⟩
      rw [hid]
      simpa using hx
  have hperm : (((orgContacts db orgId).filter
      (fun r => (referencedIds payload).contains r.id)).map (fun r => r.id)).Perm
      (referencedIds payload) :=
    (List.perm_ext_iff_of_nodup hFnodup hnd).mpr hmem
  have hlen := hperm.length_eq
  simpa using hlen

/-- C1 (amended): under well-formed payload identifiers (every truthy
identifier is a number present in the pre-update snapshot, with no two
entries referencing the same id), the reconciliation stores exactly the
payload-described set: the organization keeps precisely its referenced
rows (ids preserved, the entry's columns merged in), every other row of
the organization is deleted, one fresh row is appended per identifier-less
entry, the final contact count equals the payload length, and no duplicate
ids arise.  Creation stores exactly the payload contact points as fresh
rows of the new organization.  The concrete scenario from the spec
reconciles to the expected state of size 2.  (The unamended claim fails
for stale identifiers, which are silently dropped.) -/
theorem organizationContactReconciliation
    (db : Db) (orgId : Int) (payload : List JsObj)
    (hlt : ∀ r ∈ db.contacts, r.id < db.nextContactId)
    (hnodup : (db.contacts.map (fun r => r.id)).Nodup)
    (hvalid : payload.all (identValid (existingContactIds db orgId)) = true)
    (hnd : (referencedIds payload).Nodup) :
    orgContacts (updateOrganizationContacts db orgId payload) orgId
      = ((orgContacts db orgId).filter (fun r => (referencedIds payload).contains r.id)).map
          (updOf (updatesOf (existingContactIds db orgId) payload))
        ++ insertedRows db.nextContactId orgId (insertsOf payload)
    ∧ (orgContacts (updateOrganizationContacts db orgId payload) orgId).length = payload.length
    ∧ ((orgContacts (updateOrganizationContacts db orgId payload) orgId).map
        (fun r => r.id)).Nodup
    ∧ (∀ apiData : JsObj, (∀ r ∈ db.contacts, r.organizationId ≠ db.nextOrgId) →
        orgContacts (createOrganizationDb db apiData).1 db.nextOrgId
          = insertedRows db.nextContactId db.nextOrgId
              (prepareOrganizationDataForSave apiData).contactPoints)
    ∧ updateOrganizationContacts exScenarioDb 7 exScenarioPayload
        = { organizations := [⟨7, [("name", JsValue.vstr "Org")]⟩]
            contacts := [⟨1, 7, [("contactType", JsValue.vstr "phone"),
                                 ("email", JsValue.vstr "new@x.com")]⟩,
                         ⟨3, 7, [("contactType", JsValue.vstr "fax"),
                                 ("email", JsValue.vstr "y@x.com")]⟩]
            nextOrgId := 8
            nextContactId := 4 } := by
  have hA : orgContacts (updateOrganizationContacts db orgId payload) orgId
      = ((orgContacts db orgId).filter (fun r => (referencedIds payload).contains r.id)).map
          (updOf (updatesOf (existingContactIds db orgId) payload))
        ++ insertedRows db.nextContactId orgId (insertsOf payload) := by
    rw [updateOrganizationContacts_normal db orgId payload hlt hnd]
    show (((db.contacts.filter (fun r =>
        !((getIdsToDelete (existingContactIds db orgId) payload).contains r.id))).map
        (updOf (updatesOf (existingContactIds db orgId) payload))
        ++ insertedRows db.nextContactId orgId (insertsOf payload)).filter
        (fun r => r.organizationId == orgId)) = _
    rw [List.filter_append]
    congr 1
    · rw [List.filter_map]
      congr 1
      rw [List.filter_filter]
      show db.contacts.filter _ = (db.contacts.filter (fun r => r.organizationId == orgId)).filter _
      rw [List.filter_filter]
      apply List.filter_congr
      intro r hr
      have horgpres : ((updOf (updatesOf (existingContactIds db orgId) payload) r).organizationId)
          = r.organizationId := updOf_orgId _ _
      simp only [Function.comp, horgpres]
      by_cases horg2 : (r.organizationId == orgId) = true
      · have hmemex : r.id ∈ existingContactIds db orgId := by
          unfold existingContactIds orgContacts
          apply List.mem_map.mpr
          exact ⟨r, List.mem_filter.mpr ⟨hr, horg2⟩, rfl⟩
        have hkeep := keep_iff_referenced (existingContactIds db orgId) payload r.id hmemex
        rw [horg2, hkeep]
        simp
      · have h2 : (r.organizationId == orgId) = false := by simpa using horg2
        simp [h2]
    · exact insertedRows_filter_org _ _ _
  refine ⟨hA, ?_, ?_, ?_, ?_⟩
  · rw [hA, List.length_append, List.length_map, insertedRows_length]
    rw [filter_referenced_length db orgId payload hnodup hvalid hnd]
    exact referenced_inserts_length _ _ hvalid
  · rw [hA, List.map_append, List.map_map]
    have hids : ((orgContacts db orgId).filter
        (fun r => (referencedIds payload).contains r.id)).map
        ((fun r => r.id) ∘ updOf (updatesOf (existingContactIds db orgId) payload))
        = ((orgContacts db orgId).filter
            (fun r => (referencedIds payload).contains r.id)).map (fun r => r.id) := by
      apply List.map_congr_left
      intro r _
      simp [Function.comp, updOf_id]
    rw [hids]
    rw [List.nodup_append]
    have hFsub : ((orgContacts db orgId).filter
        (fun r => (referencedIds payload).contains r.id)).Sublist db.contacts :=
      (List.filter_sublist _).trans (List.filter_sublist _)
    refine ⟨hnodup.sublist (hFsub.map _), insertedRows_ids_nodup _ _ _, ?_⟩
    intro x hx hx2
    obtain ⟨r, hr, hid⟩ := List.mem_map.mp hx
    have hxlt : x < db.nextContactId := by
      rw [← hid]
      exact hlt r (hFsub.mem hr)
    obtain ⟨r2, hr2, hid2⟩ := List.mem_map.mp hx2
    have hxge := insertedRows_le db.nextContactId orgId (insertsOf payload) r2 hr2
    omega
  · intro apiData horg
    rw [(createOrganizationDb_spec db apiData).2]
    show ((db.contacts ++ insertedRows db.nextContactId db.nextOrgId
        (prepareOrganizationDataForSave apiData).contactPoints).filter
        (fun r => r.organizationId == db.nextOrgId)) = _
    rw [List.filter_append]
    have h1 : db.contacts.filter (fun r => r.organizationId == db.nextOrgId) = [] := by
      rw [List.filter_eq_nil_iff]
      intro r hr
      simpa using horg r hr
    rw [h1, insertedRows_filter_org, List.nil_append]
  · rfl

/-- C1 counterexample: with a stale identifier the stored set does not
equal the payload-described set: the payload describes one contact point
but after the update the organization has none (the stale entry is
dropped and the unreferenced row is deleted). -/
theorem organizationContactReconciliation_counterexample :
    orgContacts (updateOrganizationContacts exStaleDb 7 [exStaleEntry]) 7 = []
    ∧ ([exStaleEntry] : List JsObj).length = 1 :=
  ⟨rfl, rfl⟩

/-- Witness for the amended reconciliation claim at the concrete scenario. -/
theorem organizationContactReconciliation_witness :
    exScenarioPayload.all (identValid (existingContactIds exScenarioDb 7)) = true
    ∧ (orgContacts (updateOrganizationContacts exScenarioDb 7 exScenarioPayload) 7).length
        = exScenarioPayload.length :=
  ⟨by decide,
    (organizationContactReconciliation exScenarioDb 7 exScenarioPayload
      (by decide) (by decide) (by decide) (by decide)).2.1⟩

/-- C9: the aggregated contact-points column lists exactly the
organization's contact points as view objects ordered by contact type
ascending (regardless of insertion order), and is null when the
organization has none.  Concretely, rows inserted with types phone,
email, fax are read back in the order email, fax, phone. -/
theorem contactPointsOrdered (db : Db) (orgId : Int) :
    (orgContacts db orgId = [] → contactPointsColumn db orgId = JsValue.vnull)
    ∧ (orgContacts db orgId ≠ [] → ∃ l : List ContactRow,
        contactPointsColumn db orgId = JsValue.varr (l.map contactPointView)
        ∧ l.Perm (orgContacts db orgId)
        ∧ l.Pairwise rowLe)
    ∧ contactPointsColumn exOrderDb 7
        = JsValue.varr
            [contactPointView ⟨2, 7, [("contactType", JsValue.vstr "email")]⟩,
             contactPointView ⟨3, 7, [("contactType", JsValue.vstr "fax")]⟩,
             contactPointView ⟨1, 7, [("contactType", JsValue.vstr "phone")]⟩] := by
  refine ⟨?_, ?_, rfl⟩
  · intro h
    simp [contactPointsColumn, h]
  · intro h
    refine ⟨List.insertionSort rowLe (orgContacts db orgId), ?_, ?_, ?_⟩
    · rw [contactPointsColumn, if_neg]
      simp [List.isEmpty_iff, h]
    · exact List.perm_insertionSort rowLe _
    · exact List.sorted_insertionSort rowLe _

/-- Witness for the ordering claim: the empty organization reads back a
null contact-points column. -/
theorem contactPointsOrdered_witness :
    contactPointsColumn exEmptyDb 1 = JsValue.vnull :=
  (contactPointsOrdered exEmptyDb 1).1 rfl

/-- Witness for the stale-identifier claim at a concrete input. -/
theorem staleIdentifierDropped_witness :
    truthy (getIdentifier exStaleEntry) = true
    ∧ contactStmtsFor (existingContactIds exStaleDb 7) 7 exStaleEntry = [] :=
  ⟨by decide,
    (staleIdentifierDropped exStaleDb 7 [] [] exStaleEntry (by decide) (by decide)).1⟩

/-- Witness for the falsy-identifier claim at a concrete input. -/
theorem falsyIdentifierInsertsAsNew_witness :
    truthy (getIdentifier exFalsyEntry) = false
    ∧ contactStmtsFor [1, 2] 7 exFalsyEntry = [ContactStmt.ins 7 exFalsyEntry] :=
  ⟨by decide, (falsyIdentifierInsertsAsNew [1, 2] 7 exFalsyEntry (by decide)).1⟩

theorem likeMatchL_nil (s : List Char) : likeMatchL [] s = s.isEmpty := by
  rw [likeMatchL.eq_def]

theorem likeMatchL_pct_nil (p : List Char) : likeMatchL ('%' :: p) [] = likeMatchL p [] := by
  rw [likeMatchL.eq_def]
  simp

theorem likeMatchL_pct_cons (p : List Char) (c : Char) (s : List Char) :
    likeMatchL ('%' :: p) (c :: s) = (likeMatchL p (c :: s) || likeMatchL ('%' :: p) s) := by
  rw [likeMatchL.eq_def]
  simp

theorem likeMatchL_plain_nil (c : Char) (p : List Char)
    (h1 : ¬ c = '%') (h2 : ¬ c = '_') (h3 : ¬ c = '\\') :
    likeMatchL (c :: p) [] = false := by
  rw [likeMatchL.eq_def]
  simp [h1, h2, h3]

theorem likeMatchL_plain_cons (c : Char) (p : List Char) (c2 : Char) (s : List Char)
    (h1 : ¬ c = '%') (h2 : ¬ c = '_') (h3 : ¬ c = '\\') :
    likeMatchL (c :: p) (c2 :: s) = (c == c2 && likeMatchL p s) := by
  rw [likeMatchL.eq_def]
  simp [h1, h2, h3]

theorem listInfixB_nil (p : List Char) : listInfixB p [] = listStartsB p [] := rfl

theorem listInfixB_cons (p : List Char) (c : Char) (s : List Char) :
    listInfixB p (c :: s) = (listStartsB p (c :: s) || listInfixB p s) := rfl

theorem likeMatchL_percent (s : List Char) : likeMatchL ['%'] s = true := by
  induction s with
  | nil =>
      rw [likeMatchL_pct_nil, likeMatchL_nil]
      rfl
  | cons c s2 ih =>
      rw [likeMatchL_pct_cons, ih]
      simp

theorem noMetaL_cons (c : Char) (v : List Char) (hv : noMetaL (c :: v) = true) :
    (¬ c = '%') ∧ (¬ c = '_') ∧ (¬ c = '\\') ∧ noMetaL v = true := by
  have hsplit : ((!(c == '%') && !(c == '_') && !(c == '\\')) = true) ∧ noMetaL v = true := by
    simpa [noMetaL] using hv
  have h1 := hsplit.1
  refine ⟨?_, ?_, ?_, hsplit.2⟩
  · intro hh
    subst hh
    simp at h1
  · intro hh
    subst hh
    simp at h1
  · intro hh
    subst hh
    simp at h1

theorem likeMatchL_plain_percent (v : List Char) (hv : noMetaL v = true) :
    ∀ s : List Char, likeMatchL (v ++ ['%']) s = listStartsB v s := by
  induction v with
  | nil =>
      intro s
      rw [List.nil_append, likeMatchL_percent]
      rfl
  | cons c v2 ih =>
      intro s
      obtain ⟨hc1, hc2, hc3, hv2⟩ := noMetaL_cons c v2 hv
      cases s with
      | nil =>
          rw [List.cons_append, likeMatchL_plain_nil c (v2 ++ ['%']) hc1 hc2 hc3]
          rfl
      | cons c2 s2 =>
          rw [List.cons_append, likeMatchL_plain_cons c (v2 ++ ['%']) c2 s2 hc1 hc2 hc3]
          rw [ih hv2 s2]
          rfl

theorem likeMatchL_infix_percent (v : List Char) (hv : noMetaL v = true) :
    ∀ s : List Char, likeMatchL ('%' :: (v ++ ['%'])) s = listInfixB v s := by
  intro s
  induction s with
  | nil =>
      rw [likeMatchL_pct_nil, likeMatchL_plain_percent v hv, listInfixB_nil]
  | cons c s2 ih =>
      rw [likeMatchL_pct_cons, likeMatchL_plain_percent v hv, ih, listInfixB_cons]

theorem listInfixB_nil_pattern (s : List Char) : listInfixB [] s = true := by
  cases s with
  | nil => rfl
  | cons c s2 =>
      rw [listInfixB_cons]
      simp [listStartsB]

theorem nameCondition (v : String) (hm : noMeta v = true) (s : String) :
    (if v == "" then true else likeMatch ("%" ++ v ++ "%") s) = strContainsB v s := by
  by_cases hv : v = ""
  · subst hv
    simp [strContainsB, listInfixB_nil_pattern]
  · have hvb : (v == "") = false := by simp [hv]
    rw [hvb]
    simp only [Bool.false_eq_true, if_false]
    unfold likeMatch strContainsB
    have hdata : ("%" ++ v ++ "%").data = '%' :: (v.data ++ ['%']) := by
      simp [String.data_append]
    rw [hdata]
    exact likeMatchL_infix_percent v.data hm s.data

theorem startCondition (v : String) (hm : noMeta v = true) (s : String) :
    (if v == "" then true else likeMatch (v ++ "%") s) = strStartsB v s := by
  by_cases hv : v = ""
  · subst hv
    simp [strStartsB, listStartsB]
  · have hvb : (v == "") = false := by simp [hv]
    rw [hvb]
    simp only [Bool.false_eq_true, if_false]
    unfold likeMatch strStartsB
    have hdata : (v ++ "%").data = v.data ++ ['%'] := by
      simp [String.data_append]
    rw [hdata]
    exact likeMatchL_plain_percent v.data hm s.data

/-- C8 (amended): for filter values free of LIKE metacharacters (`%`,
`_`, backslash), the WHERE clause behaves exactly as the spec states:
`name` matches rows whose name contains the value anywhere
(case-sensitive), `address_locality` and `postal_code` match rows whose
column starts with the value, the remaining filters are exact-match
equality, and an absent filter adds no condition.  An empty-string value
is skipped by the truthiness test, which coincides with the
contains/starts-with reading.  (Values containing metacharacters are
interpreted as wildcards by the engine, breaking the unamended claim.) -/
theorem filterSemantics (filters : OrgFilters) (row : OrgQueryRow)
    (h1 : ∀ v, filters.name = some v → noMeta v = true)
    (h2 : ∀ v, filters.address_locality = some v → noMeta v = true)
    (h3 : ∀ v, filters.postal_code = some v → noMeta v = true) :
    orgMatches filters row = specMatches filters row := by
  unfold orgMatches specMatches
  congr 1
  · congr 1
    · congr 1
      cases hn : filters.name with
      | none => rfl
      | some v => exact nameCondition v (h1 v hn) row.name
    · cases hn : filters.address_locality with
      | none => rfl
      | some v => exact startCondition v (h2 v hn) row.address_locality
  · cases hn : filters.postal_code with
    | none => rfl
    | some v => exact startCondition v (h3 v hn) row.postal_code

/-- C8 counterexample: the name filter `%` matches the name `zzz` (the
engine reads it as a wildcard) although `zzz` does not contain `%`, so
the claimed substring semantics fails for metacharacter values. -/
theorem filterSemantics_counterexample :
    orgMatches exFilterPct exRowZzz = true ∧ specMatches exFilterPct exRowZzz = false := by
  constructor
  · have h1 : likeMatchL ['%', '%', '%'] ['z', 'z', 'z'] = true := by
      rw [likeMatchL_pct_cons, likeMatchL_pct_cons, likeMatchL_percent]
      simp
    have h2 : ("%" ++ "%" ++ "%").data = ['%', '%', '%'] := rfl
    simp [orgMatches, exFilterPct, exRowZzz, restMatches, likeMatch, h2, h1]
  · rfl

/-- Witness for the amended filter semantics at the spec's example values. -/
theorem filterSemantics_witness :
    noMeta "Lead" = true
    ∧ orgMatches exFilterLead exRowLead = specMatches exFilterLead exRowLead
    ∧ specMatches exFilterLead exRowLead = true :=
  ⟨by decide,
    filterSemantics exFilterLead exRowLead
      (fun v hv => by cases hv; decide)
      (fun v hv => by cases hv)
      (fun v hv => by cases hv; decide),
    by decide⟩

/-- C5: if the organization INSERT succeeded but any contact-point INSERT
fails inside the create transaction, the whole transaction rolls back —
the state is unchanged and the inserted organization row does not exist
afterwards — and the operation resolves with the `{error}` result object
rather than rejecting. -/
theorem createOrganizationAtomicity (db : Db) (apiData : JsObj) (o : CreateOracle)
    (e : String)
    (horg : o.orgInsertFail = none)
    (hfail : firstContactFail o.contactInsertFails
        (prepareOrganizationDataForSave apiData).contactPoints.length = some e) :
    (createOrganization db apiData o).1 = db
    ∧ (createOrganization db apiData o).2 = Except.ok (mkErrorObj e)
    ∧ ((∀ r ∈ db.organizations, r.id ≠ db.nextOrgId) →
        (createOrganization db apiData o).1.organizations.find?
          (fun r => r.id == db.nextOrgId) = none) := by
  unfold createOrganization
  rw [horg, hfail]
  refine ⟨rfl, rfl, ?_⟩
  intro hfresh
  apply List.find?_eq_none.mpr
  intro r hr
  simpa using hfresh r hr

/-- Witness for the create-atomicity claim at a concrete failing input. -/
theorem createOrganizationAtomicity_witness :
    exCreateOracle.orgInsertFail = none
    ∧ firstContactFail exCreateOracle.contactInsertFails
        (prepareOrganizationDataForSave exCreatePayload).contactPoints.length = some "boom"
    ∧ (createOrganization exEmptyDb exCreatePayload exCreateOracle).1 = exEmptyDb :=
  ⟨rfl, rfl,
    (createOrganizationAtomicity exEmptyDb exCreatePayload exCreateOracle "boom" rfl rfl).1⟩

/-- C6 (amended): `getOrganization`, `createOrganization`,
`updateOrganization` and `deleteOrganization` always resolve — every
persistence failure is converted into a result value (the `{error}`
object) by their catch handlers — whereas `getOrganizationPaginatedList`
has no catch and propagates a query rejection past the facade boundary. -/
theorem errorResultBoundary :
    (∀ (db : Db) (apiData : JsObj) (o : CreateOracle),
      ∃ v, (createOrganization db apiData o).2 = Except.ok v)
    ∧ (∀ (db : Db) (orgId : Int) (apiData : JsObj) (o : UpdateOracle),
      ∃ v, (updateOrganization db orgId apiData o).2 = Except.ok v)
    ∧ (∀ (db : Db) (orgId : Int) (q : Option String),
      ∃ v, (getOrganization db orgId q).2 = Except.ok v)
    ∧ (∀ (db : Db) (orgId : Int) (q : Option String),
      ∃ v, (deleteOrganization db orgId q).2 = Except.ok v)
    ∧ (∀ (pageRows : List JsObj) (pp cp : Int) (e : String),
      getOrganizationPaginatedList pageRows pp cp (some e) = Except.error e) := by
  refine ⟨?_, ?_, ?_, ?_, ?_⟩
  · intro db apiData o
    unfold createOrganization
    cases o.orgInsertFail
    · cases firstContactFail o.contactInsertFails
          (prepareOrganizationDataForSave apiData).contactPoints.length
      · cases o.readBackFail
        · exact ⟨_, rfl⟩
        · exact ⟨_, rfl⟩
      · exact ⟨_, rfl⟩
    · exact ⟨_, rfl⟩
  · intro db orgId apiData o
    unfold updateOrganization
    cases o.trxFail
    · cases o.readBackFail
      · exact ⟨_, rfl⟩
      · exact ⟨_, rfl⟩
    · exact ⟨_, rfl⟩
  · intro db orgId q
    unfold getOrganization
    cases q
    · exact ⟨_, rfl⟩
    · exact ⟨_, rfl⟩
  · intro db orgId q
    unfold deleteOrganization
    cases q
    · exact ⟨_, rfl⟩
    · exact ⟨_, rfl⟩
  · intro pageRows pp cp e
    rfl

/-- C6 counterexample: a failing list query rejects past the boundary —
the paginated list is the one operation without a catch. -/
theorem errorResultBoundary_counterexample :
    getOrganizationPaginatedList [] 10 1 (some "boom") = Except.error "boom" := rfl

/-- C7: deleting an id with no matching row resolves with the empty
object and leaves the state unchanged; deleting an existing id resolves
with the id object, and deleting it again immediately afterwards resolves
with the empty object — idempotent-delete semantics. -/
theorem deleteOrganizationIdempotent (db : Db) (organizationId : Int) :
    (organizationId ∉ db.organizations.map (fun r => r.id) →
      deleteOrganization db organizationId none = (db, Except.ok (JsValue.vobj [])))
    ∧ (organizationId ∈ db.organizations.map (fun r => r.id) →
        (deleteOrganization db organizationId none).2
            = Except.ok (JsValue.vobj [("id", JsValue.vnum organizationId)])
        ∧ (deleteOrganization (deleteOrganization db organizationId none).1
            organizationId none).2 = Except.ok (JsValue.vobj [])) := by
  constructor
  · intro hno
    unfold deleteOrganization
    have hner : ∀ r ∈ db.organizations, r.id ≠ organizationId := by
      intro r hr hh
      exact hno (hh ▸ List.mem_map_of_mem _ hr)
    have hkeep : db.organizations.filter (fun r => r.id != organizationId)
        = db.organizations := by
      apply List.filter_eq_self.mpr
      intro r hr
      simpa [bne] using hner r hr
    have hmatched : db.organizations.filter (fun r => r.id == organizationId) = [] := by
      rw [List.filter_eq_nil_iff]
      intro r hr
      simpa using hner r hr
    rw [hkeep, hmatched]
    simp
  · intro hyes
    have hne : (db.organizations.filter (fun r => r.id == organizationId)).length ≠ 0 := by
      obtain ⟨r, hr, hid⟩ := List.mem_map.mp hyes
      have hmem : r ∈ db.organizations.filter (fun r => r.id == organizationId) :=
        List.mem_filter.mpr ⟨hr, by simp [hid]⟩
      intro h0
      rw [List.length_eq_zero] at h0
      rw [h0] at hmem
      cases hmem
    constructor
    · unfold deleteOrganization
      simp [hne]
    · unfold deleteOrganization
      have h2 : ((db.organizations.filter (fun r => r.id != organizationId)).filter
          (fun r => r.id == organizationId)) = [] := by
        rw [List.filter_eq_nil_iff]
        intro r hr
        have hr2 := List.of_mem_filter hr
        simp [bne] at hr2
        simpa using hr2
      simp [h2]

/-- Witness for the idempotent-delete claim: deleting id 3 twice yields
the id object then the empty object. -/
theorem deleteOrganizationIdempotent_witness :
    (3 : Int) ∈ exDelDb.organizations.map (fun r => r.id)
    ∧ (deleteOrganization exDelDb 3 none).2
        = Except.ok (JsValue.vobj [("id", JsValue.vnum 3)])
    ∧ (deleteOrganization (deleteOrganization exDelDb 3 none).1 3 none).2
        = Except.ok (JsValue.vobj []) :=
  ⟨by decide,
    ((deleteOrganizationIdempotent exDelDb 3).2 (by decide)).1,
    ((deleteOrganizationIdempotent exDelDb 3).2 (by decide)).2⟩
